import Mathlib

/-!
Shallow embedding of the gedit SafetySave plugin (safety_save.py).

The plugin has two parts:
* an app extension whose activation runs a cleanup sweep over old
  session-backup directories (method do_cleanup of
  SafetySavePluginAppExtension);
* a view extension, one per document view, that watches an untitled
  document and periodically stores its text under
  store_root/session_id/display_name (SafetySavePluginViewExtension).

Modelling conventions:
* A session subdirectory name is a timestamp in the fixed format
  YYYYMMDD-HHMMSS; strftime/strptime is a bijection between such names
  and times, so directory names are represented directly by their parsed
  timestamps, as Int seconds.  datetime subtraction yields (possibly
  negative) seconds, hence Int.
* The filesystem seen by one watcher is the current session directory:
  whether it exists and the (name, contents) pairs of the files in it.
  Filesystem calls fail exactly when the real call would raise OSError:
  unlink of a missing file, listdir or open-for-write in a missing
  directory, rmdir of a non-empty or missing directory.
* Python attributes that are deleted / not yet assigned (save_timer_id,
  sig_saved, file_path, the cached enabled flag) are Option fields;
  reading a missing one raises AttributeError, modelled as the raising
  outcome none.
* Methods return (Option result, state): the first component is none
  when an uncaught exception escapes the method, and the second is the
  state at that point (mutations made before the raise persist).
* Log calls append their level to a log list; the message text is not
  modelled, only at which level the plugin logs.
-/

namespace SafetySave

/-- Levels of the python logging calls made by the plugin. -/
inductive LogLevel where
  | debug
  | info
  | warning
  | error
deriving DecidableEq, Repr

/-- Retention threshold in seconds: 86400 * 7 * 4 from safety_save.py. -/
def maxStoredAgeS : Int := 86400 * 7 * 4

/-- One session-backup subdirectory of the store root: its name
(represented by the parsed timestamp) and the names of the files in it. -/
structure SessionDir where
  timestamp : Int
  files : List String
deriving DecidableEq, Repr

/-- Destructive filesystem actions performed by the cleanup sweep:
unlink of one file inside a session subdirectory, or rmdir of the
subdirectory itself.  The sweep performs no other filesystem action. -/
inductive FsAction where
  | unlinkA (dir : Int) (file : String)
  | rmdirA (dir : Int)
deriving DecidableEq, Repr

/-- Session subdirectory a cleanup action acts on. -/
def FsAction.dir : FsAction → Int
  | .unlinkA d _ => d
  | .rmdirA d => d

/-- Actions the cleanup loop performs on one expired subdirectory:
unlink every file in it, then rmdir the directory. -/
def cleanupDirActions (d : SessionDir) : List FsAction :=
  d.files.map (FsAction.unlinkA d.timestamp) ++ [FsAction.rmdirA d.timestamp]

/-- Loop body of do_cleanup over the (sorted) subdirectory list: a
subdirectory whose age now - timestamp is strictly below the threshold
is kept (skip, log only); otherwise every file in it is unlinked and the
directory removed.  Returns the surviving subdirectories and the
filesystem actions performed, in order. -/
def cleanupLoop (now : Int) : List SessionDir → List SessionDir × List FsAction
  | [] => ([], [])
  | d :: rest =>
    if now - d.timestamp < maxStoredAgeS then
      (d :: (cleanupLoop now rest).1, (cleanupLoop now rest).2)
    else
      ((cleanupLoop now rest).1, cleanupDirActions d ++ (cleanupLoop now rest).2)

/-- Listdir on the store root: raises OSError when the root is absent. -/
def listdirRoot (root : Option (List SessionDir)) : Except Unit (List SessionDir) :=
  match root with
  | none => .error ()
  | some ds => .ok ds

/-- Insertion into a list sorted by timestamp. -/
def insertByTime (d : SessionDir) : List SessionDir → List SessionDir
  | [] => [d]
  | e :: rest =>
    if d.timestamp ≤ e.timestamp then d :: e :: rest
    else e :: insertByTime d rest

/-- Sorting of the subdirectory listing; python sorts the names, and the
fixed name format is lexicographically ordered as the timestamps. -/
def sortByTime (ds : List SessionDir) : List SessionDir :=
  ds.foldr insertByTime []

/-- Embedding of do_cleanup of SafetySavePluginAppExtension: list the
store root (catching OSError when it is absent and returning), sort, and
run the retention loop.  Returns the store root afterwards (none when it
did not exist) and the filesystem actions performed. -/
def doCleanup (now : Int) (root : Option (List SessionDir)) :
    Option (List SessionDir) × List FsAction :=
  match listdirRoot root with
  | .error _ => (root, [])
  | .ok ds =>
    let r := cleanupLoop now (sortByTime ds)
    (some r.1, r.2)

/-- Gio settings values the plugin reads: the standard gedit auto-save
toggle and the auto-save interval in minutes. -/
structure GSettings where
  autoSave : Bool
  autoSaveInterval : Nat
deriving DecidableEq, Repr

/-- Snapshot of the gedit document object as the plugin observes it:
display name, whether it is untitled, whether it is untouched, and the
full text between start and end iterators. -/
structure Doc where
  displayName : String
  isUntitled : Bool
  isUntouched : Bool
  text : String
deriving DecidableEq, Repr

/-- Current-session slice of the filesystem a watcher touches: whether
the session store path exists and the (name, contents) files in it. -/
structure SessionFS where
  dirExists : Bool
  files : List (String × String)
deriving DecidableEq, Repr

/-- Test for a file of the given name in the session directory. -/
def SessionFS.hasFile (fs : SessionFS) (name : String) : Bool :=
  fs.files.any (fun f => f.1 = name)

/-- Contents of the named file in the session directory, when present. -/
def SessionFS.content (fs : SessionFS) (name : String) : Option String :=
  (fs.files.find? (fun f => f.1 = name)).map Prod.snd

/-- Open-for-write semantics on the file list: truncate an existing
entry to the new contents, or create the entry. -/
def setFile (files : List (String × String)) (name text : String) :
    List (String × String) :=
  if files.any (fun f => f.1 = name) then
    files.map (fun f => if f.1 = name then (name, text) else f)
  else
    files ++ [(name, text)]

/-- Removal of the named entry from the file list. -/
def removeFile (files : List (String × String)) (name : String) :
    List (String × String) :=
  files.filter (fun f => ¬ f.1 = name)

/-- Write of text to a file in the session directory; raises when the
directory does not exist. -/
def SessionFS.write (fs : SessionFS) (name text : String) :
    Except Unit SessionFS :=
  if fs.dirExists then
    .ok ⟨true, setFile fs.files name text⟩
  else
    .error ()

/-- Unlink of a file in the session directory; raises when the file
does not exist. -/
def SessionFS.unlink (fs : SessionFS) (name : String) :
    Except Unit SessionFS :=
  if fs.hasFile name then
    .ok ⟨fs.dirExists, removeFile fs.files name⟩
  else
    .error ()

/-- Listdir of the session directory; raises when it does not exist. -/
def SessionFS.listdir (fs : SessionFS) : Except Unit (List String) :=
  if fs.dirExists then .ok (fs.files.map Prod.fst) else .error ()

/-- Rmdir of the session directory; raises unless it exists and is
empty. -/
def SessionFS.rmdir (fs : SessionFS) : Except Unit SessionFS :=
  if fs.dirExists && fs.files.isEmpty then
    .ok ⟨false, []⟩
  else
    .error ()

/-- Per-view mutable attributes of SafetySavePluginViewExtension.
watchState is the watch_state flag; cachedEnabled holds the enabled
flag and run_interval_s attributes once the first enabled-check has
read and cached them; saveTimerId holds the scheduled wait in seconds
while the recurring timer source exists; sigSaved the saved-signal
handler id while connected; filePath the temp-file name chosen at
watch start (the display name of the document). -/
structure ViewState where
  watchState : Bool
  cachedEnabled : Option (Bool × Nat)
  saveTimerId : Option Nat
  sigSaved : Option Nat
  filePath : Option String
deriving DecidableEq, Repr

/-- Attributes of a freshly constructed view extension: watch_state is
false and no other attribute has been assigned yet. -/
def ViewState.initial : ViewState :=
  ⟨false, none, none, none, none⟩

/-- World of one view extension: its attributes, the session slice of
the filesystem, and the log emitted so far. -/
structure W where
  st : ViewState
  fs : SessionFS
  log : List LogLevel
deriving DecidableEq, Repr

/-- Appending of a log record at the given level. -/
def logAdd (w : W) (lvl : LogLevel) : W :=
  ⟨w.st, w.fs, w.log ++ [lvl]⟩

/-- Embedding of ensure_path: create the session store path when it
does not exist yet (with an info log), else do nothing. -/
def ensurePath (w : W) : W :=
  if w.fs.dirExists = false then
    let w1 := logAdd w .info
    ⟨w1.st, ⟨true, w1.fs.files⟩, w1.log⟩
  else
    w

/-- Embedding of is_enabled: return the cached enabled flag when the
attribute exists; on the first call (AttributeError path) read the
auto-save toggle and interval from settings, cache both, warn when
disabled, log the flag at debug level, and return it. -/
def isEnabled (s : GSettings) (w : W) : Bool × W :=
  match w.st.cachedEnabled with
  | some c => (c.1, w)
  | none =>
    let e := s.autoSave
    let w1 : W := ⟨⟨w.st.watchState, some (e, s.autoSaveInterval),
      w.st.saveTimerId, w.st.sigSaved, w.st.filePath⟩, w.fs, w.log⟩
    let w2 := if e = false then logAdd w1 .warning else w1
    (e, logAdd w2 .debug)

/-- Embedding of set_schedule: compute the wait in seconds as the
cached interval (minutes) times 60 and store the recurring timer;
reading the interval attribute before any enabled-check raises. -/
def setSchedule (w : W) : Option Unit × W :=
  match w.st.cachedEnabled with
  | none => (none, w)
  | some c =>
    let w1 := logAdd w .debug
    (some (), ⟨⟨w1.st.watchState, w1.st.cachedEnabled, some (c.2 * 60),
      w1.st.sigSaved, w1.st.filePath⟩, w1.fs, w1.log⟩)

/-- Embedding of clear_schedule: remove the timer source and delete the
attribute; reading the attribute when it is absent raises. -/
def clearSchedule (w : W) : Option Unit × W :=
  match w.st.saveTimerId with
  | none => (none, w)
  | some _ =>
    let w1 := logAdd w .debug
    (some (), ⟨⟨w1.st.watchState, w1.st.cachedEnabled, none,
      w1.st.sigSaved, w1.st.filePath⟩, w1.fs, w1.log⟩)

/-- Embedding of hook_signals: connect the saved-signal handler and
keep its id. -/
def hookSignals (w : W) : W :=
  let w1 := logAdd w .debug
  ⟨⟨w1.st.watchState, w1.st.cachedEnabled, w1.st.saveTimerId,
    some 0, w1.st.filePath⟩, w1.fs, w1.log⟩

/-- Embedding of unhook_signals: disconnect the handler and delete the
attribute; reading the attribute when it is absent raises. -/
def unhookSignals (w : W) : Option Unit × W :=
  match w.st.sigSaved with
  | none => (none, w)
  | some _ =>
    let w1 := logAdd w .debug
    (some (), ⟨⟨w1.st.watchState, w1.st.cachedEnabled, w1.st.saveTimerId,
      none, w1.st.filePath⟩, w1.fs, w1.log⟩)

/-- Embedding of watch_start: set watch_state, record the temp-file
path for the display name of the document, hook the saved signal and
schedule the recurring store callback. -/
def watchStart (name : String) (w : W) : Option Unit × W :=
  let w1 : W := ⟨⟨true, w.st.cachedEnabled, w.st.saveTimerId,
    w.st.sigSaved, w.st.filePath⟩, w.fs, w.log⟩
  let w2 := logAdd w1 .debug
  let w3 : W := ⟨⟨w2.st.watchState, w2.st.cachedEnabled, w2.st.saveTimerId,
    w2.st.sigSaved, some name⟩, w2.fs, w2.log⟩
  setSchedule (hookSignals w3)

/-- Embedding of watch_stop: return at once when not watching;
otherwise clear watch_state, cancel the recurring timer and disconnect
the saved-signal handler. -/
def watchStop (w : W) : Option Unit × W :=
  if w.st.watchState = false then
    (some (), w)
  else
    let w1 : W := ⟨⟨false, w.st.cachedEnabled, w.st.saveTimerId,
      w.st.sigSaved, w.st.filePath⟩, w.fs, w.log⟩
    let w2 := logAdd w1 .debug
    match clearSchedule w2 with
    | (none, w3) => (none, w3)
    | (some _, w3) => unhookSignals w3

/-- Embedding of store_unsaved_cb, the recurring timer callback: when
the document is untouched, log and return True (keep the schedule);
otherwise ensure the session store path exists, read the full document
text and write it whole over the temp file, then return True to
reschedule.  The returned Bool is the continue flag; a none result is
an exception escaping the callback. -/
def storeUnsavedCb (d : Doc) (w : W) : Option Bool × W :=
  let w1 := logAdd w .debug
  if d.isUntouched = true then
    (some true, logAdd w1 .debug)
  else
    let w2 := ensurePath w1
    match w2.st.filePath with
    | none => (none, w2)
    | some p =>
      let w3 := logAdd w2 .info
      match w3.fs.write p d.text with
      | .error _ => (none, w3)
      | .ok fs1 => (some true, ⟨w3.st, fs1, w3.log⟩)

/-- Embedding of cleanup_temp_file: unlink the temp file
unconditionally, then remove the session store path too when no other
temp file remains in it. -/
def cleanupTempFile (w : W) : Option Unit × W :=
  match w.st.filePath with
  | none => (none, w)
  | some p =>
    let w1 := logAdd w .info
    match w1.fs.unlink p with
    | .error _ => (none, w1)
    | .ok fs1 =>
      let w2 : W := ⟨w1.st, fs1, w1.log⟩
      match w2.fs.listdir with
      | .error _ => (none, w2)
      | .ok names =>
        if names.length > 0 then
          (some (), logAdd w2 .debug)
        else
          let w3 := logAdd w2 .info
          match w3.fs.rmdir with
          | .error _ => (none, w3)
          | .ok fs2 => (some (), ⟨w3.st, fs2, w3.log⟩)

/-- Embedding of on_saved, the saved-signal handler, which fires only
on a successful named save: when watching, stop the watch and clean up
the temp file. -/
def onSaved (w : W) : Option Unit × W :=
  if w.st.watchState = true then
    match watchStop w with
    | (none, w1) => (none, w1)
    | (some _, w1) => cleanupTempFile w1
  else
    (some (), w)

/-- Embedding of do_activate of the view extension: when the
enabled-check fails, warn and return; when the document already has a
name, log and return; otherwise start watching. -/
def doActivate (s : GSettings) (d : Doc) (w : W) : Option Unit × W :=
  if (isEnabled s w).1 = false then
    (some (), logAdd (isEnabled s w).2 .warning)
  else if d.isUntitled = false then
    (some (), logAdd (isEnabled s w).2 .debug)
  else
    watchStart d.displayName (isEnabled s w).2

/-- Embedding of do_deactivate of the view extension: return when the
enabled-check fails, otherwise stop the watch. -/
def doDeactivate (s : GSettings) (w : W) : Option Unit × W :=
  if (isEnabled s w).1 = false then
    (some (), (isEnabled s w).2)
  else
    watchStop (isEnabled s w).2

/-- Host-loop events a single view extension can receive.  The host
only fires the timer callback while a timer source is scheduled and
only delivers the saved signal while the handler is connected. -/
inductive VEvent where
  | activate (d : Doc)
  | timerTick (d : Doc)
  | savedSignal
  | deactivate
deriving DecidableEq, Repr

/-- One host-loop step for a view extension. -/
def stepEvent (s : GSettings) (e : VEvent) (w : W) : W :=
  match e with
  | .activate d => (doActivate s d w).2
  | .timerTick d =>
    if w.st.saveTimerId.isSome then (storeUnsavedCb d w).2 else w
  | .savedSignal =>
    if w.st.sigSaved.isSome then (onSaved w).2 else w
  | .deactivate => (doDeactivate s w).2

/-- Run of a sequence of host-loop events. -/
def runEvents (s : GSettings) (es : List VEvent) (w : W) : W :=
  es.foldl (fun w e => stepEvent s e w) w

/-- Run of a sequence of timer ticks, each observing the document
snapshot taken at that tick; stops at the first escaping exception. -/
def runTicks (ds : List Doc) (w : W) : Option Unit × W :=
  match ds with
  | [] => (some (), w)
  | d :: rest =>
    match storeUnsavedCb d w with
    | (none, w1) => (none, w1)
    | (some _, w1) => runTicks rest w1

/-- Document snapshot of the most recent tick that found the document
touched: the last element of the tick sequence whose snapshot is not
untouched. -/
def lastTouched : List Doc → Option Doc
  | [] => none
  | d :: rest =>
    match lastTouched rest with
    | some x => some x
    | none => if d.isUntouched = false then some d else none

/-- Idle shape of a view extension whose enabled-check never succeeded:
not watching, no timer source, no signal handler, and the cached
enabled flag is either unread or read as false. -/
def disabledIdle (w : W) : Prop :=
  w.st.watchState = false ∧ w.st.saveTimerId = none ∧ w.st.sigSaved = none ∧
  (w.st.cachedEnabled = none ∨ ∃ i, w.st.cachedEnabled = some (false, i))

theorem mem_insertByTime (d e : SessionDir) (l : List SessionDir) :
    e ∈ insertByTime d l ↔ e = d ∨ e ∈ l := by
  induction l with
  | nil => simp [insertByTime]
  | cons x xs ih =>
    simp only [insertByTime]
    split
    · simp [List.mem_cons]
    · simp [List.mem_cons, ih]
      tauto

theorem mem_sortByTime (d : SessionDir) (ds : List SessionDir) :
    d ∈ sortByTime ds ↔ d ∈ ds := by
  induction ds with
  | nil => simp [sortByTime]
  | cons x xs ih =>
    simp only [sortByTime, List.foldr_cons]
    rw [mem_insertByTime]
    simp only [sortByTime] at ih
    rw [ih, List.mem_cons]

theorem cleanupLoop_kept_mem (now : Int) (l : List SessionDir) (d : SessionDir) :
    d ∈ (cleanupLoop now l).1 ↔ d ∈ l ∧ now - d.timestamp < maxStoredAgeS := by
  induction l with
  | nil => simp [cleanupLoop]
  | cons x xs ih =>
    simp only [cleanupLoop]
    split
    · next h =>
      simp only [List.mem_cons, ih]
      constructor
      · rintro (rfl | ⟨hm, hy⟩)
        · exact ⟨Or.inl rfl, h⟩
        · exact ⟨Or.inr hm, hy⟩
      · rintro ⟨rfl | hm, hy⟩
        · exact Or.inl rfl
        · exact Or.inr ⟨hm, hy⟩
    · next h =>
      simp only [ih, List.mem_cons]
      constructor
      · rintro ⟨hm, hy⟩
        exact ⟨Or.inr hm, hy⟩
      · rintro ⟨rfl | hm, hy⟩
        · exact absurd hy h
        · exact ⟨hm, hy⟩

theorem cleanupLoop_actions_dir (now : Int) (l : List SessionDir) (a : FsAction) :
    a ∈ (cleanupLoop now l).2 →
    ∃ d ∈ l, FsAction.dir a = d.timestamp ∧ ¬ now - d.timestamp < maxStoredAgeS := by
  induction l with
  | nil => simp [cleanupLoop]
  | cons x xs ih =>
    simp only [cleanupLoop]
    split
    · next h =>
      intro ha
      obtain ⟨d, hd, he⟩ := ih ha
      exact ⟨d, List.mem_cons_of_mem _ hd, he⟩
    · next h =>
      intro ha
      rw [List.mem_append] at ha
      cases ha with
      | inl hx =>
        refine ⟨x, List.mem_cons_self _ _, ?_, h⟩
        simp only [cleanupDirActions, List.mem_append, List.mem_map,
          List.mem_singleton] at hx
        cases hx with
        | inl hf =>
          obtain ⟨f, _, rfl⟩ := hf
          rfl
        | inr hr =>
          subst hr
          rfl
      | inr hx =>
        obtain ⟨d, hd, he⟩ := ih hx
        exact ⟨d, List.mem_cons_of_mem _ hd, he⟩

theorem cleanupLoop_expired_infix (now : Int) (l : List SessionDir) (d : SessionDir)
    (hd : d ∈ l) (hold : ¬ now - d.timestamp < maxStoredAgeS) :
    cleanupDirActions d <:+: (cleanupLoop now l).2 := by
  induction l with
  | nil => cases hd
  | cons x xs ih =>
    rcases List.mem_cons.mp hd with rfl | hm
    · simp only [cleanupLoop, if_neg hold]
      exact ⟨[], (cleanupLoop now xs).2, by simp⟩
    · simp only [cleanupLoop]
      split
      · exact ih hm
      · exact (ih hm).trans ⟨cleanupDirActions x, [], by simp⟩

/-! Basic lemmas about the small state-passing helpers. -/

@[simp]
theorem logAdd_st (w : W) (l : LogLevel) : (logAdd w l).st = w.st := rfl

@[simp]
theorem logAdd_fs (w : W) (l : LogLevel) : (logAdd w l).fs = w.fs := rfl

@[simp]
theorem ensurePath_st (w : W) : (ensurePath w).st = w.st := by
  unfold ensurePath
  split <;> rfl

@[simp]
theorem ensurePath_files (w : W) : (ensurePath w).fs.files = w.fs.files := by
  unfold ensurePath
  split <;> rfl

@[simp]
theorem ensurePath_dirExists (w : W) : (ensurePath w).fs.dirExists = true := by
  unfold ensurePath
  split
  · rfl
  · next h => simpa using h

theorem isEnabled_cachedSome (s : GSettings) (w : W) (c : Bool × Nat)
    (h : w.st.cachedEnabled = some c) : isEnabled s w = (c.1, w) := by
  unfold isEnabled
  rw [h]

@[simp]
theorem isEnabled_fs (s : GSettings) (w : W) : (isEnabled s w).2.fs = w.fs := by
  simp only [isEnabled]
  split
  · rfl
  · split <;> rfl

@[simp]
theorem isEnabled_watchState (s : GSettings) (w : W) :
    (isEnabled s w).2.st.watchState = w.st.watchState := by
  simp only [isEnabled]
  split
  · rfl
  · split <;> rfl

@[simp]
theorem isEnabled_timer (s : GSettings) (w : W) :
    (isEnabled s w).2.st.saveTimerId = w.st.saveTimerId := by
  simp only [isEnabled]
  split
  · rfl
  · split <;> rfl

@[simp]
theorem isEnabled_sig (s : GSettings) (w : W) :
    (isEnabled s w).2.st.sigSaved = w.st.sigSaved := by
  simp only [isEnabled]
  split
  · rfl
  · split <;> rfl

@[simp]
theorem isEnabled_filePath (s : GSettings) (w : W) :
    (isEnabled s w).2.st.filePath = w.st.filePath := by
  simp only [isEnabled]
  split
  · rfl
  · split <;> rfl

theorem watchStop_not_watching (w : W) (h : w.st.watchState = false) :
    watchStop w = (some (), w) := by
  unfold watchStop
  rw [h]
  rfl

theorem watchStop_watching (w : W) (t g : Nat) (hw : w.st.watchState = true)
    (ht : w.st.saveTimerId = some t) (hg : w.st.sigSaved = some g) :
    watchStop w = (some (),
      ⟨⟨false, w.st.cachedEnabled, none, none, w.st.filePath⟩, w.fs,
        w.log ++ [.debug, .debug, .debug]⟩) := by
  unfold watchStop clearSchedule unhookSignals
  rw [hw]
  simp only [logAdd, ht, hg]
  simp

theorem storeUnsavedCb_st (d : Doc) (w : W) :
    (storeUnsavedCb d w).2.st = w.st := by
  simp only [storeUnsavedCb]
  split
  · rfl
  · split
    · simp
    · split
      · simp
      · simp

theorem storeUnsavedCb_untouched (d : Doc) (w : W) (h : d.isUntouched = true) :
    (storeUnsavedCb d w).1 = some true ∧ (storeUnsavedCb d w).2.fs = w.fs := by
  unfold storeUnsavedCb
  rw [if_pos h]
  exact ⟨rfl, rfl⟩

/-- Claim C5: a tick on a watched document that reports an untouched
state creates no file, modifies no file and creates no session
directory (the filesystem slice is unchanged), leaves every view
attribute unchanged, and returns True so that the recurring schedule
stays alive. -/
theorem untouched_tick_is_pure (d : Doc) (w : W) (h : d.isUntouched = true) :
    (storeUnsavedCb d w).1 = some true ∧
    (storeUnsavedCb d w).2.fs = w.fs ∧
    (storeUnsavedCb d w).2.st = w.st := by
  obtain ⟨h1, h2⟩ := storeUnsavedCb_untouched d w h
  exact ⟨h1, h2, storeUnsavedCb_st d w⟩

theorem untouched_tick_is_pure_witness :
    (Doc.isUntouched ⟨"Unsaved Document 1", true, true, "abc"⟩ = true) ∧
    (storeUnsavedCb ⟨"Unsaved Document 1", true, true, "abc"⟩
        ⟨⟨true, some (true, 1), some 60, some 0, some "Unsaved Document 1"⟩,
          ⟨false, []⟩, []⟩).1 = some true ∧
    (storeUnsavedCb ⟨"Unsaved Document 1", true, true, "abc"⟩
        ⟨⟨true, some (true, 1), some 60, some 0, some "Unsaved Document 1"⟩,
          ⟨false, []⟩, []⟩).2.fs = ⟨false, []⟩ ∧
    (storeUnsavedCb ⟨"Unsaved Document 1", true, true, "abc"⟩
        ⟨⟨true, some (true, 1), some 60, some 0, some "Unsaved Document 1"⟩,
          ⟨false, []⟩, []⟩).2.st =
      ⟨true, some (true, 1), some 60, some 0, some "Unsaved Document 1"⟩ :=
  ⟨rfl, untouched_tick_is_pure _ _ rfl⟩

/-- Claim C6: when the store root does not exist, the cleanup sweep
catches the listdir error and returns successfully, performing no
filesystem action and leaving the root as it was. -/
theorem cleanup_missing_root_is_noop (now : Int) :
    doCleanup now none = (none, []) := rfl

/-- Claim C9: stopping a watcher that never entered the Watching state
is a no-op: the timer and signal attributes and the whole filesystem
slice are untouched, no exception escapes, and the watcher stays out of
the Watching state. -/
theorem stop_never_watching_is_noop (s : GSettings) (w : W)
    (h : w.st.watchState = false) :
    (doDeactivate s w).1 = some () ∧
    (doDeactivate s w).2.fs = w.fs ∧
    (doDeactivate s w).2.st.saveTimerId = w.st.saveTimerId ∧
    (doDeactivate s w).2.st.sigSaved = w.st.sigSaved ∧
    (doDeactivate s w).2.st.watchState = false := by
  unfold doDeactivate
  have hstop : watchStop (isEnabled s w).2 = (some (), (isEnabled s w).2) := by
    apply watchStop_not_watching
    rw [isEnabled_watchState]
    exact h
  split
  · simp [h]
  · rw [hstop]
    simp [h]

theorem stop_never_watching_is_noop_witness :
    ((⟨⟨false, none, none, none, none⟩, ⟨true, [("a", "x")]⟩, []⟩ : W).st.watchState
        = false) ∧
    (doDeactivate ⟨true, 5⟩
        ⟨⟨false, none, none, none, none⟩, ⟨true, [("a", "x")]⟩, []⟩).1 = some () ∧
    (doDeactivate ⟨true, 5⟩
        ⟨⟨false, none, none, none, none⟩, ⟨true, [("a", "x")]⟩, []⟩).2.fs
      = ⟨true, [("a", "x")]⟩ ∧
    (doDeactivate ⟨true, 5⟩
        ⟨⟨false, none, none, none, none⟩, ⟨true, [("a", "x")]⟩, []⟩).2.st.saveTimerId
      = none ∧
    (doDeactivate ⟨true, 5⟩
        ⟨⟨false, none, none, none, none⟩, ⟨true, [("a", "x")]⟩, []⟩).2.st.sigSaved
      = none ∧
    (doDeactivate ⟨true, 5⟩
        ⟨⟨false, none, none, none, none⟩, ⟨true, [("a", "x")]⟩, []⟩).2.st.watchState
      = false := by
  refine ⟨rfl, ?_⟩
  have h := stop_never_watching_is_noop ⟨true, 5⟩
    ⟨⟨false, none, none, none, none⟩, ⟨true, [("a", "x")]⟩, []⟩ rfl
  simpa using h

/-- Claim C4: stopping a watching view without a save (teardown via
do_deactivate) cancels the recurring timer and unregisters the saved
handler, but performs no filesystem operation at all: the temp file
stays exactly as its last tick left it. -/
theorem stop_without_save_keeps_temp_file (s : GSettings) (w : W)
    (i t g : Nat) (hw : w.st.watchState = true)
    (hc : w.st.cachedEnabled = some (true, i))
    (ht : w.st.saveTimerId = some t) (hg : w.st.sigSaved = some g) :
    (doDeactivate s w).1 = some () ∧
    (doDeactivate s w).2.fs = w.fs ∧
    (doDeactivate s w).2.st.saveTimerId = none ∧
    (doDeactivate s w).2.st.sigSaved = none ∧
    (doDeactivate s w).2.st.watchState = false ∧
    (doDeactivate s w).2.st.filePath = w.st.filePath := by
  unfold doDeactivate
  rw [isEnabled_cachedSome s w (true, i) hc]
  dsimp only
  rw [if_neg (by decide : ¬ ((true : Bool) = false))]
  rw [watchStop_watching w t g hw ht hg]
  exact ⟨rfl, rfl, rfl, rfl, rfl, rfl⟩

theorem stop_without_save_keeps_temp_file_witness :
    ((⟨⟨true, some (true, 2), some 120, some 0, some "doc"⟩,
        ⟨true, [("doc", "hello")]⟩, []⟩ : W).st.watchState = true) ∧
    (doDeactivate ⟨false, 9⟩
        ⟨⟨true, some (true, 2), some 120, some 0, some "doc"⟩,
          ⟨true, [("doc", "hello")]⟩, []⟩).1 = some () ∧
    (doDeactivate ⟨false, 9⟩
        ⟨⟨true, some (true, 2), some 120, some 0, some "doc"⟩,
          ⟨true, [("doc", "hello")]⟩, []⟩).2.fs = ⟨true, [("doc", "hello")]⟩ ∧
    (doDeactivate ⟨false, 9⟩
        ⟨⟨true, some (true, 2), some 120, some 0, some "doc"⟩,
          ⟨true, [("doc", "hello")]⟩, []⟩).2.st.saveTimerId = none ∧
    (doDeactivate ⟨false, 9⟩
        ⟨⟨true, some (true, 2), some 120, some 0, some "doc"⟩,
          ⟨true, [("doc", "hello")]⟩, []⟩).2.st.sigSaved = none ∧
    (doDeactivate ⟨false, 9⟩
        ⟨⟨true, some (true, 2), some 120, some 0, some "doc"⟩,
          ⟨true, [("doc", "hello")]⟩, []⟩).2.st.watchState = false ∧
    (doDeactivate ⟨false, 9⟩
        ⟨⟨true, some (true, 2), some 120, some 0, some "doc"⟩,
          ⟨true, [("doc", "hello")]⟩, []⟩).2.st.filePath = some "doc" := by
  refine ⟨rfl, ?_⟩
  have h := stop_without_save_keeps_temp_file ⟨false, 9⟩
    ⟨⟨true, some (true, 2), some 120, some 0, some "doc"⟩,
      ⟨true, [("doc", "hello")]⟩, []⟩ 2 120 0 rfl rfl rfl rfl
  simpa using h

theorem isEnabled_fresh (s : GSettings) (w : W)
    (h : w.st.cachedEnabled = none) :
    (isEnabled s w).1 = s.autoSave ∧
    (isEnabled s w).2.st.cachedEnabled =
      some (s.autoSave, s.autoSaveInterval) := by
  unfold isEnabled
  rw [h]
  dsimp only
  split <;> exact ⟨rfl, rfl⟩

theorem stepEvent_cached (s1 s2 : GSettings) (e : VEvent) (w : W)
    (c : Bool × Nat) (h : w.st.cachedEnabled = some c) :
    stepEvent s1 e w = stepEvent s2 e w := by
  cases e with
  | activate d =>
    simp only [stepEvent, doActivate, isEnabled_cachedSome s1 w c h,
      isEnabled_cachedSome s2 w c h]
  | timerTick d => rfl
  | savedSignal => rfl
  | deactivate =>
    simp only [stepEvent, doDeactivate, isEnabled_cachedSome s1 w c h,
      isEnabled_cachedSome s2 w c h]

/-- Claim C10: the enabled toggle and the interval are read from the
settings store only on the first enabled-check and cached: the first
check on a fresh view caches the values it read, a repeated check under
different settings returns the first result and changes nothing, and
every host-loop step after the first check is the same under the old
and the new settings. -/
theorem settings_read_at_most_once (s1 s2 : GSettings) (w : W) (e : VEvent)
    (h : w.st.cachedEnabled = none) :
    (isEnabled s1 w).1 = s1.autoSave ∧
    (isEnabled s1 w).2.st.cachedEnabled =
      some (s1.autoSave, s1.autoSaveInterval) ∧
    isEnabled s2 (isEnabled s1 w).2 =
      ((isEnabled s1 w).1, (isEnabled s1 w).2) ∧
    stepEvent s2 e (isEnabled s1 w).2 = stepEvent s1 e (isEnabled s1 w).2 := by
  obtain ⟨h1, h2⟩ := isEnabled_fresh s1 w h
  refine ⟨h1, h2, ?_, ?_⟩
  · rw [isEnabled_cachedSome s2 (isEnabled s1 w).2 _ h2]
    rw [h1]
  · exact stepEvent_cached s2 s1 e (isEnabled s1 w).2 _ h2

theorem settings_read_at_most_once_witness :
    ((⟨ViewState.initial, ⟨false, []⟩, []⟩ : W).st.cachedEnabled = none) ∧
    (isEnabled ⟨true, 3⟩ ⟨ViewState.initial, ⟨false, []⟩, []⟩).1 = true ∧
    (isEnabled ⟨true, 3⟩
        ⟨ViewState.initial, ⟨false, []⟩, []⟩).2.st.cachedEnabled =
      some (true, 3) ∧
    isEnabled ⟨false, 8⟩
        (isEnabled ⟨true, 3⟩ ⟨ViewState.initial, ⟨false, []⟩, []⟩).2 =
      ((isEnabled ⟨true, 3⟩ ⟨ViewState.initial, ⟨false, []⟩, []⟩).1,
        (isEnabled ⟨true, 3⟩ ⟨ViewState.initial, ⟨false, []⟩, []⟩).2) ∧
    stepEvent ⟨false, 8⟩ VEvent.deactivate
        (isEnabled ⟨true, 3⟩ ⟨ViewState.initial, ⟨false, []⟩, []⟩).2 =
      stepEvent ⟨true, 3⟩ VEvent.deactivate
        (isEnabled ⟨true, 3⟩ ⟨ViewState.initial, ⟨false, []⟩, []⟩).2 := by
  refine ⟨rfl, ?_⟩
  have h := settings_read_at_most_once ⟨true, 3⟩ ⟨false, 8⟩
    ⟨ViewState.initial, ⟨false, []⟩, []⟩ VEvent.deactivate rfl
  simpa using h

theorem find?_map_replace (name text : String) :
    ∀ files : List (String × String),
      files.any (fun f => f.1 = name) = true →
      (files.map (fun f => if f.1 = name then (name, text) else f)).find?
          (fun f => f.1 = name) = some (name, text)
  | [], h => by simp at h
  | f :: rest, h => by
    by_cases hf : f.1 = name
    · rw [List.map_cons, if_pos hf]
      exact List.find?_cons_of_pos _ (by simp)
    · rw [List.map_cons, if_neg hf]
      rw [List.find?_cons_of_neg _ (by simp [hf])]
      apply find?_map_replace name text rest
      simp only [List.any_cons, hf] at h
      simpa using h

theorem find?_append_new (name text : String) :
    ∀ files : List (String × String),
      files.any (fun f => f.1 = name) = false →
      (files ++ [(name, text)]).find? (fun f => f.1 = name) =
        some (name, text)
  | [], _ => by simp
  | f :: rest, h => by
    rw [List.any_cons] at h
    have h1 := Bool.or_eq_false_iff.mp h
    rw [List.cons_append, List.find?_cons_of_neg _ (by simp [h1.1])]
    exact find?_append_new name text rest h1.2

theorem content_setFile (b : Bool) (files : List (String × String))
    (name text : String) :
    SessionFS.content ⟨b, setFile files name text⟩ name = some text := by
  unfold SessionFS.content setFile
  by_cases h : files.any (fun f => f.1 = name)
  · rw [if_pos h]
    dsimp only
    rw [find?_map_replace name text files h]
    rfl
  · rw [if_neg h]
    dsimp only
    rw [find?_append_new name text files (by rwa [Bool.not_eq_true] at h)]
    rfl

theorem storeUnsavedCb_touched (d : Doc) (w : W) (p : String)
    (hd : d.isUntouched = false) (hp : w.st.filePath = some p) :
    (storeUnsavedCb d w).1 = some true ∧
    (storeUnsavedCb d w).2.fs = ⟨true, setFile w.fs.files p d.text⟩ := by
  simp only [storeUnsavedCb, hd, Bool.false_eq_true, if_false,
    ensurePath_st, logAdd_st, hp]
  simp [SessionFS.write]

theorem lastTouched_cons_of_some (d : Doc) (rest : List Doc) (y : Doc)
    (hr : lastTouched rest = some y) : lastTouched (d :: rest) = some y := by
  unfold lastTouched
  rw [hr]

theorem lastTouched_cons_of_none (d : Doc) (rest : List Doc)
    (hr : lastTouched rest = none) :
    lastTouched (d :: rest) =
      if d.isUntouched = false then some d else none := by
  unfold lastTouched
  rw [hr]

theorem lastTouched_none (ds : List Doc) (h : lastTouched ds = none) :
    ∀ d ∈ ds, d.isUntouched = true := by
  induction ds with
  | nil => simp
  | cons d rest ih =>
    intro x hx
    unfold lastTouched at h
    rcases hr : lastTouched rest with _ | y
    · rw [hr] at h
      dsimp only at h
      rcases List.mem_cons.mp hx with rfl | hm
      · by_contra hne
        rw [if_pos (by simpa using hne)] at h
        cases h
      · exact ih hr x hm
    · rw [hr] at h
      cases h

theorem runTicks_ok (ds : List Doc) (w : W) (p : String)
    (hp : w.st.filePath = some p) :
    (runTicks ds w).1 = some () ∧ (runTicks ds w).2.st = w.st := by
  induction ds generalizing w with
  | nil => exact ⟨rfl, rfl⟩
  | cons d rest ih =>
    rcases hsc : storeUnsavedCb d w with ⟨o, w1⟩
    have hst : w1.st = w.st := by
      have := storeUnsavedCb_st d w
      rw [hsc] at this
      exact this
    have ho : o = some true := by
      by_cases hu : d.isUntouched = true
      · have := (storeUnsavedCb_untouched d w hu).1
        rw [hsc] at this
        exact this
      · have := (storeUnsavedCb_touched d w p (by simpa using hu) hp).1
        rw [hsc] at this
        exact this
    subst ho
    simp only [runTicks, hsc]
    have := ih w1 (by rw [hst]; exact hp)
    exact ⟨this.1, by rw [this.2, hst]⟩

theorem runTicks_all_untouched (ds : List Doc) (w : W)
    (h : ∀ d ∈ ds, d.isUntouched = true) :
    (runTicks ds w).2.fs = w.fs := by
  induction ds generalizing w with
  | nil => rfl
  | cons d rest ih =>
    rcases hsc : storeUnsavedCb d w with ⟨o, w1⟩
    have hu := storeUnsavedCb_untouched d w (h d (by simp))
    rw [hsc] at hu
    obtain ⟨ho, hfs⟩ := hu
    dsimp only at ho hfs
    subst ho
    simp only [runTicks, hsc]
    rw [ih w1 (fun x hx => h x (List.mem_cons_of_mem _ hx)), hfs]

/-- Claim C1: running any sequence of autosave ticks over a watched
document, the callback never raises and afterwards the temp file at the
recorded path holds exactly the full text of the document as read at
the most recent tick that found it touched, with nothing added. -/
theorem temp_file_holds_last_touched_text (ds : List Doc) (w : W)
    (p : String) (x : Doc) (hp : w.st.filePath = some p)
    (hl : lastTouched ds = some x) :
    (runTicks ds w).1 = some () ∧
    SessionFS.content (runTicks ds w).2.fs p = some x.text := by
  induction ds generalizing w with
  | nil => cases hl
  | cons d rest ih =>
    rcases hsc : storeUnsavedCb d w with ⟨o, w1⟩
    have hst : w1.st = w.st := by
      have := storeUnsavedCb_st d w
      rw [hsc] at this
      exact this
    by_cases hu : d.isUntouched = true
    · have h2 := storeUnsavedCb_untouched d w hu
      rw [hsc] at h2
      obtain ⟨ho, _⟩ := h2
      dsimp only at ho
      subst ho
      simp only [runTicks, hsc]
      have hlr : lastTouched rest = some x := by
        rcases hr : lastTouched rest with _ | y
        · rw [lastTouched_cons_of_none d rest hr] at hl
          rw [if_neg (by simp [hu])] at hl
          cases hl
        · rw [lastTouched_cons_of_some d rest y hr] at hl
          exact hl
      exact ih w1 (by rw [hst]; exact hp) hlr
    · have hd : d.isUntouched = false := by simpa using hu
      have h2 := storeUnsavedCb_touched d w p hd hp
      rw [hsc] at h2
      obtain ⟨ho, hfs⟩ := h2
      dsimp only at ho hfs
      subst ho
      simp only [runTicks, hsc]
      rcases hr : lastTouched rest with _ | y
      · have hx : x = d := by
          rw [lastTouched_cons_of_none d rest hr, if_pos hd] at hl
          exact (Option.some.inj hl).symm
        subst hx
        have hok := runTicks_ok rest w1 p (by rw [hst]; exact hp)
        refine ⟨hok.1, ?_⟩
        rw [runTicks_all_untouched rest w1 (lastTouched_none rest hr), hfs]
        exact content_setFile true w.fs.files p x.text
      · have hx : y = x := by
          rw [lastTouched_cons_of_some d rest y hr] at hl
          exact Option.some.inj hl
        subst hx
        exact ih w1 (by rw [hst]; exact hp) hr

theorem temp_file_holds_last_touched_text_witness :
    ((⟨⟨true, some (true, 1), some 60, some 0, some "doc"⟩, ⟨false, []⟩, []⟩ :
        W).st.filePath = some "doc") ∧
    lastTouched [⟨"doc", true, false, "first"⟩, ⟨"doc", true, false, "second"⟩,
        ⟨"doc", true, true, "ignored"⟩] = some ⟨"doc", true, false, "second"⟩ ∧
    (runTicks [⟨"doc", true, false, "first"⟩, ⟨"doc", true, false, "second"⟩,
        ⟨"doc", true, true, "ignored"⟩]
        ⟨⟨true, some (true, 1), some 60, some 0, some "doc"⟩,
          ⟨false, []⟩, []⟩).1 = some () ∧
    SessionFS.content
        (runTicks [⟨"doc", true, false, "first"⟩, ⟨"doc", true, false, "second"⟩,
          ⟨"doc", true, true, "ignored"⟩]
          ⟨⟨true, some (true, 1), some 60, some 0, some "doc"⟩,
            ⟨false, []⟩, []⟩).2.fs "doc" = some "second" := by
  refine ⟨rfl, by decide, ?_⟩
  have h := temp_file_holds_last_touched_text
    [⟨"doc", true, false, "first"⟩, ⟨"doc", true, false, "second"⟩,
      ⟨"doc", true, true, "ignored"⟩]
    ⟨⟨true, some (true, 1), some 60, some 0, some "doc"⟩, ⟨false, []⟩, []⟩
    "doc" ⟨"doc", true, false, "second"⟩ rfl (by decide)
  simpa using h

theorem any_removeFile (files : List (String × String)) (p : String) :
    (removeFile files p).any (fun f => f.1 = p) = false := by
  rw [Bool.eq_false_iff]
  intro h
  rw [List.any_eq_true] at h
  obtain ⟨f, hf, hp⟩ := h
  rw [removeFile, List.mem_filter] at hf
  rw [decide_eq_true_iff] at hp
  have := hf.2
  rw [decide_eq_true_iff] at this
  exact this hp

theorem cleanupTempFile_present (w : W) (p : String)
    (hp : w.st.filePath = some p) (hd : w.fs.dirExists = true)
    (hf : w.fs.hasFile p = true) :
    (cleanupTempFile w).1 = some () ∧
    (cleanupTempFile w).2.st = w.st ∧
    (cleanupTempFile w).2.fs.files = removeFile w.fs.files p ∧
    (cleanupTempFile w).2.fs.dirExists = !(removeFile w.fs.files p).isEmpty := by
  simp only [cleanupTempFile, hp]
  simp only [SessionFS.unlink, logAdd_fs, hf, if_true]
  simp only [SessionFS.listdir, hd, if_true]
  cases hrm : removeFile w.fs.files p with
  | nil => simp [SessionFS.rmdir]
  | cons a l => simp

/-- Claim C2, corrected statement at its counterexample: when the saved
signal fires on a watching view whose temp file was never written (the
session directory exists but holds no file of that name), the handler
raises instead of completing, and the then-empty session directory is
not removed, against the claimed conditional delete plus
empty-directory removal. -/
theorem saved_cleanup_counterexample :
    (onSaved ⟨⟨true, some (true, 1), some 60, some 0, some "doc"⟩,
        ⟨true, []⟩, []⟩).1 = none ∧
    (onSaved ⟨⟨true, some (true, 1), some 60, some 0, some "doc"⟩,
        ⟨true, []⟩, []⟩).2.fs.dirExists = true := by
  decide

/-- Claim C2 as amended: when the saved signal fires on a watching view
the handler cancels the recurring timer and unregisters itself, then
deletes the temp file unconditionally; provided the temp file is
present, the deletion succeeds, the temp file is absent afterwards, and
the session directory is removed exactly when no other temp file
remains in it. -/
theorem saved_removes_temp_file (w : W) (p : String) (t g : Nat)
    (hw : w.st.watchState = true) (ht : w.st.saveTimerId = some t)
    (hg : w.st.sigSaved = some g) (hp : w.st.filePath = some p)
    (hd : w.fs.dirExists = true) (hf : w.fs.hasFile p = true) :
    (onSaved w).1 = some () ∧
    (onSaved w).2.st.watchState = false ∧
    (onSaved w).2.st.saveTimerId = none ∧
    (onSaved w).2.st.sigSaved = none ∧
    (onSaved w).2.fs.hasFile p = false ∧
    (onSaved w).2.fs.files = removeFile w.fs.files p ∧
    (onSaved w).2.fs.dirExists = !(removeFile w.fs.files p).isEmpty := by
  unfold onSaved
  rw [hw, if_pos rfl, watchStop_watching w t g hw ht hg]
  dsimp only
  have h := cleanupTempFile_present
    ⟨⟨false, w.st.cachedEnabled, none, none, w.st.filePath⟩, w.fs,
      w.log ++ [.debug, .debug, .debug]⟩ p hp hd hf
  refine ⟨h.1, ?_, ?_, ?_, ?_, h.2.2.1, h.2.2.2⟩
  · rw [h.2.1]
  · rw [h.2.1]
  · rw [h.2.1]
  · show SessionFS.hasFile _ p = false
    unfold SessionFS.hasFile
    rw [h.2.2.1]
    exact any_removeFile w.fs.files p

theorem saved_removes_temp_file_witness :
    ((⟨⟨true, some (true, 1), some 60, some 0, some "a"⟩,
        ⟨true, [("a", "txt"), ("b", "u")]⟩, []⟩ : W).st.watchState = true) ∧
    (onSaved ⟨⟨true, some (true, 1), some 60, some 0, some "a"⟩,
        ⟨true, [("a", "txt"), ("b", "u")]⟩, []⟩).1 = some () ∧
    (onSaved ⟨⟨true, some (true, 1), some 60, some 0, some "a"⟩,
        ⟨true, [("a", "txt"), ("b", "u")]⟩, []⟩).2.st.watchState = false ∧
    (onSaved ⟨⟨true, some (true, 1), some 60, some 0, some "a"⟩,
        ⟨true, [("a", "txt"), ("b", "u")]⟩, []⟩).2.st.saveTimerId = none ∧
    (onSaved ⟨⟨true, some (true, 1), some 60, some 0, some "a"⟩,
        ⟨true, [("a", "txt"), ("b", "u")]⟩, []⟩).2.st.sigSaved = none ∧
    (onSaved ⟨⟨true, some (true, 1), some 60, some 0, some "a"⟩,
        ⟨true, [("a", "txt"), ("b", "u")]⟩, []⟩).2.fs.hasFile "a" = false ∧
    (onSaved ⟨⟨true, some (true, 1), some 60, some 0, some "a"⟩,
        ⟨true, [("a", "txt"), ("b", "u")]⟩, []⟩).2.fs.files = [("b", "u")] ∧
    (onSaved ⟨⟨true, some (true, 1), some 60, some 0, some "a"⟩,
        ⟨true, [("a", "txt"), ("b", "u")]⟩, []⟩).2.fs.dirExists = true := by
  refine ⟨rfl, ?_⟩
  have h := saved_removes_temp_file
    ⟨⟨true, some (true, 1), some 60, some 0, some "a"⟩,
      ⟨true, [("a", "txt"), ("b", "u")]⟩, []⟩ "a" 60 0 rfl rfl rfl rfl rfl
    (by decide)
  revert h
  decide

/-- Claim C8, corrected statement at its counterexample: a filesystem
failure on the temp-file delete (here, the file was removed externally
before the saved signal) makes the handler raise an uncaught exception
instead of returning, and nothing is logged at error level. -/
theorem fs_failure_counterexample :
    (onSaved ⟨⟨true, some (true, 2), some 120, some 1, some "doc"⟩,
        ⟨true, [("other", "x")]⟩, []⟩).1 = none ∧
    LogLevel.error ∉
      (onSaved ⟨⟨true, some (true, 2), some 120, some 1, some "doc"⟩,
        ⟨true, [("other", "x")]⟩, []⟩).2.log := by
  decide

/-- Claim C8 as amended: when the temp-file delete fails because the
file is absent, the exception escapes the handler uncaught, no log
record at error level is added, the filesystem is left unchanged by the
failed delete, and the watcher flags are already consistent: the watch
was stopped and the timer and handler were dropped before the delete
was attempted. -/
theorem fs_failure_escapes_unlogged (w : W) (p : String) (t g : Nat)
    (hw : w.st.watchState = true) (ht : w.st.saveTimerId = some t)
    (hg : w.st.sigSaved = some g) (hp : w.st.filePath = some p)
    (hf : w.fs.hasFile p = false) :
    (onSaved w).1 = none ∧
    (onSaved w).2.fs = w.fs ∧
    ((LogLevel.error ∈ (onSaved w).2.log) ↔ (LogLevel.error ∈ w.log)) ∧
    (onSaved w).2.st.watchState = false ∧
    (onSaved w).2.st.saveTimerId = none ∧
    (onSaved w).2.st.sigSaved = none := by
  unfold onSaved
  rw [hw, if_pos rfl, watchStop_watching w t g hw ht hg]
  dsimp only
  simp only [cleanupTempFile, hp]
  simp only [SessionFS.unlink, logAdd_fs, hf, Bool.false_eq_true, if_false]
  simp [logAdd]

theorem fs_failure_escapes_unlogged_witness :
    ((⟨⟨true, some (true, 1), some 60, some 0, some "gone"⟩,
        ⟨false, []⟩, []⟩ : W).st.watchState = true) ∧
    (onSaved ⟨⟨true, some (true, 1), some 60, some 0, some "gone"⟩,
        ⟨false, []⟩, []⟩).1 = none ∧
    (onSaved ⟨⟨true, some (true, 1), some 60, some 0, some "gone"⟩,
        ⟨false, []⟩, []⟩).2.fs = ⟨false, []⟩ ∧
    ((LogLevel.error ∈ (onSaved ⟨⟨true, some (true, 1), some 60, some 0,
        some "gone"⟩, ⟨false, []⟩, []⟩).2.log) ↔
      (LogLevel.error ∈ ([] : List LogLevel))) ∧
    (onSaved ⟨⟨true, some (true, 1), some 60, some 0, some "gone"⟩,
        ⟨false, []⟩, []⟩).2.st.watchState = false ∧
    (onSaved ⟨⟨true, some (true, 1), some 60, some 0, some "gone"⟩,
        ⟨false, []⟩, []⟩).2.st.saveTimerId = none ∧
    (onSaved ⟨⟨true, some (true, 1), some 60, some 0, some "gone"⟩,
        ⟨false, []⟩, []⟩).2.st.sigSaved = none := by
  refine ⟨rfl, ?_⟩
  exact fs_failure_escapes_unlogged
    ⟨⟨true, some (true, 1), some 60, some 0, some "gone"⟩, ⟨false, []⟩, []⟩
    "gone" 60 0 rfl rfl rfl rfl rfl

theorem doCleanup_some (now : Int) (ds : List SessionDir) :
    doCleanup now (some ds) =
      (some (cleanupLoop now (sortByTime ds)).1,
        (cleanupLoop now (sortByTime ds)).2) := rfl

/-- Claim C3: the cleanup sweep skips a session subdirectory, touching
nothing of it, exactly when its age now minus its parsed timestamp is
strictly below the 28-day retention threshold; an aged subdirectory is
dropped from the store and the sweep unlinks every file in it and then
removes the directory itself (its action block appears contiguously in
the performed actions). -/
theorem cleanup_retention_threshold (now : Int) (ds : List SessionDir)
    (d : SessionDir) (hmem : d ∈ ds)
    (hnd : (ds.map SessionDir.timestamp).Nodup) :
    (now - d.timestamp < maxStoredAgeS →
      d ∈ (doCleanup now (some ds)).1.getD [] ∧
      (doCleanup now (some ds)).2.all (fun a => ¬ a.dir = d.timestamp) =
        true) ∧
    (¬ now - d.timestamp < maxStoredAgeS →
      d ∉ (doCleanup now (some ds)).1.getD [] ∧
      cleanupDirActions d <:+: (doCleanup now (some ds)).2) := by
  have hmem2 : d ∈ sortByTime ds := (mem_sortByTime d ds).mpr hmem
  rw [doCleanup_some]
  constructor
  · intro hy
    constructor
    · show d ∈ (cleanupLoop now (sortByTime ds)).1
      exact (cleanupLoop_kept_mem now (sortByTime ds) d).mpr ⟨hmem2, hy⟩
    · rw [List.all_eq_true]
      intro a ha
      rw [decide_eq_true_iff]
      intro had
      obtain ⟨x, hx, hxd, hxold⟩ :=
        cleanupLoop_actions_dir now (sortByTime ds) a ha
      have hxds : x ∈ ds := (mem_sortByTime x ds).mp hx
      have : x = d := by
        apply List.inj_on_of_nodup_map hnd hxds hmem
        rw [← hxd, had]
      subst this
      exact hxold hy
  · intro hold
    refine ⟨?_, cleanupLoop_expired_infix now (sortByTime ds) d hmem2 hold⟩
    intro hin
    exact hold ((cleanupLoop_kept_mem now (sortByTime ds) d).mp hin).2

theorem cleanup_retention_threshold_witness :
    ((⟨86400 * 40, ["g"]⟩ : SessionDir) ∈
      ([⟨86400 * 10, ["f1", "f2"]⟩, ⟨86400 * 40, ["g"]⟩,
        ⟨86400 * 59, ["h"]⟩] : List SessionDir)) ∧
    (⟨86400 * 40, ["g"]⟩ : SessionDir) ∈
      (doCleanup (86400 * 60)
        (some [⟨86400 * 10, ["f1", "f2"]⟩, ⟨86400 * 40, ["g"]⟩,
          ⟨86400 * 59, ["h"]⟩])).1.getD [] ∧
    (doCleanup (86400 * 60)
        (some [⟨86400 * 10, ["f1", "f2"]⟩, ⟨86400 * 40, ["g"]⟩,
          ⟨86400 * 59, ["h"]⟩])).2.all
      (fun a => ¬ a.dir = 86400 * 40) = true ∧
    (⟨86400 * 10, ["f1", "f2"]⟩ : SessionDir) ∉
      (doCleanup (86400 * 60)
        (some [⟨86400 * 10, ["f1", "f2"]⟩, ⟨86400 * 40, ["g"]⟩,
          ⟨86400 * 59, ["h"]⟩])).1.getD [] := by
  refine ⟨by decide, ?_, ?_, ?_⟩
  · exact ((cleanup_retention_threshold (86400 * 60)
      [⟨86400 * 10, ["f1", "f2"]⟩, ⟨86400 * 40, ["g"]⟩, ⟨86400 * 59, ["h"]⟩]
      ⟨86400 * 40, ["g"]⟩ (by decide) (by decide)).1 (by decide)).1
  · exact ((cleanup_retention_threshold (86400 * 60)
      [⟨86400 * 10, ["f1", "f2"]⟩, ⟨86400 * 40, ["g"]⟩, ⟨86400 * 59, ["h"]⟩]
      ⟨86400 * 40, ["g"]⟩ (by decide) (by decide)).1 (by decide)).2
  · exact ((cleanup_retention_threshold (86400 * 60)
      [⟨86400 * 10, ["f1", "f2"]⟩, ⟨86400 * 40, ["g"]⟩, ⟨86400 * 59, ["h"]⟩]
      ⟨86400 * 10, ["f1", "f2"]⟩ (by decide) (by decide)).2 (by decide)).1

theorem isEnabled_cachedEnabled_cases (s : GSettings) (w : W) :
    (isEnabled s w).2.st.cachedEnabled = w.st.cachedEnabled ∨
    (w.st.cachedEnabled = none ∧
      (isEnabled s w).2.st.cachedEnabled =
        some (s.autoSave, s.autoSaveInterval)) := by
  unfold isEnabled
  cases hc : w.st.cachedEnabled with
  | some c => exact Or.inl hc
  | none =>
    refine Or.inr ⟨rfl, ?_⟩
    dsimp only
    split <;> rfl

theorem isEnabled_false_of_disabledIdle (s : GSettings) (w : W)
    (hs : s.autoSave = false) (h : disabledIdle w) :
    (isEnabled s w).1 = false := by
  rcases h.2.2.2 with hc | ⟨i, hc⟩
  · rw [(isEnabled_fresh s w hc).1, hs]
  · rw [isEnabled_cachedSome s w (false, i) hc]

theorem disabledIdle_after_isEnabled (s : GSettings) (w : W)
    (hs : s.autoSave = false) (h : disabledIdle w) :
    disabledIdle (isEnabled s w).2 := by
  obtain ⟨h1, h2, h3, h4⟩ := h
  refine ⟨by rw [isEnabled_watchState]; exact h1,
    by rw [isEnabled_timer]; exact h2,
    by rw [isEnabled_sig]; exact h3, ?_⟩
  rcases isEnabled_cachedEnabled_cases s w with hc | ⟨_, hc⟩
  · rw [hc]
    exact h4
  · rw [hc, hs]
    exact Or.inr ⟨s.autoSaveInterval, rfl⟩

theorem disabledIdle_logAdd (w : W) (l : LogLevel) (h : disabledIdle w) :
    disabledIdle (logAdd w l) := h

theorem stepEvent_disabled (s : GSettings) (e : VEvent) (w : W)
    (hs : s.autoSave = false) (h : disabledIdle w) :
    (stepEvent s e w).fs = w.fs ∧ disabledIdle (stepEvent s e w) := by
  have he := isEnabled_false_of_disabledIdle s w hs h
  cases e with
  | activate d =>
    have hda : doActivate s d w =
        (some (), logAdd (isEnabled s w).2 .warning) := by
      unfold doActivate
      rw [he, if_pos rfl]
    simp only [stepEvent, hda]
    exact ⟨by simp, disabledIdle_logAdd _ _
      (disabledIdle_after_isEnabled s w hs h)⟩
  | timerTick d =>
    simp only [stepEvent, h.2.1, Option.isSome_none, Bool.false_eq_true,
      if_false]
    exact ⟨trivial, h⟩
  | savedSignal =>
    simp only [stepEvent, h.2.2.1, Option.isSome_none, Bool.false_eq_true,
      if_false]
    exact ⟨trivial, h⟩
  | deactivate =>
    have hdd : doDeactivate s w = (some (), (isEnabled s w).2) := by
      unfold doDeactivate
      rw [he, if_pos rfl]
    simp only [stepEvent, hdd]
    exact ⟨by simp, disabledIdle_after_isEnabled s w hs h⟩

theorem runEvents_cons (s : GSettings) (e : VEvent) (es : List VEvent)
    (w : W) : runEvents s (e :: es) w = runEvents s es (stepEvent s e w) :=
  rfl

theorem runEvents_disabled (s : GSettings) (es : List VEvent) (w : W)
    (hs : s.autoSave = false) (h : disabledIdle w) :
    (runEvents s es w).fs = w.fs ∧ disabledIdle (runEvents s es w) := by
  induction es generalizing w with
  | nil => exact ⟨rfl, h⟩
  | cons e es ih =>
    rw [runEvents_cons]
    obtain ⟨hfs, hinv⟩ := stepEvent_disabled s e w hs h
    obtain ⟨hfs2, hinv2⟩ := ih (stepEvent s e w) hinv
    exact ⟨hfs2.trans hfs, hinv2⟩

/-- Claim C7: with the auto-save toggle disabled before the view
extension does anything, no sequence of host-loop events ever enters
the Watching state, schedules a timer, or changes the filesystem slice,
and the cleanup sweep of the app extension creates or modifies nothing:
every session subdirectory of the root after the sweep was already
there before it. -/
theorem disabled_toggle_writes_nothing (s : GSettings) (es : List VEvent)
    (w : W) (now : Int) (root : Option (List SessionDir)) (d : SessionDir)
    (hs : s.autoSave = false) (hw : w.st = ViewState.initial)
    (hd : d ∈ (doCleanup now root).1.getD []) :
    (runEvents s es w).fs = w.fs ∧
    (runEvents s es w).st.watchState = false ∧
    (runEvents s es w).st.saveTimerId = none ∧
    d ∈ root.getD [] := by
  have hidle : disabledIdle w := by
    rw [disabledIdle, hw]
    exact ⟨rfl, rfl, rfl, Or.inl rfl⟩
  obtain ⟨hfs, hinv⟩ := runEvents_disabled s es w hs hidle
  refine ⟨hfs, hinv.1, hinv.2.1, ?_⟩
  cases root with
  | none => cases hd
  | some ds =>
    rw [doCleanup_some] at hd
    have := ((cleanupLoop_kept_mem now (sortByTime ds) d).mp hd).1
    exact (mem_sortByTime d ds).mp this

theorem disabled_toggle_writes_nothing_witness :
    ((⟨false, 5⟩ : GSettings).autoSave = false) ∧
    ((⟨ViewState.initial, ⟨false, []⟩, []⟩ : W).st = ViewState.initial) ∧
    (runEvents ⟨false, 5⟩
        [VEvent.activate ⟨"u", true, false, "text"⟩,
          VEvent.timerTick ⟨"u", true, false, "text"⟩, VEvent.savedSignal,
          VEvent.deactivate]
        ⟨ViewState.initial, ⟨false, []⟩, []⟩).fs = ⟨false, []⟩ ∧
    (runEvents ⟨false, 5⟩
        [VEvent.activate ⟨"u", true, false, "text"⟩,
          VEvent.timerTick ⟨"u", true, false, "text"⟩, VEvent.savedSignal,
          VEvent.deactivate]
        ⟨ViewState.initial, ⟨false, []⟩, []⟩).st.watchState = false ∧
    (runEvents ⟨false, 5⟩
        [VEvent.activate ⟨"u", true, false, "text"⟩,
          VEvent.timerTick ⟨"u", true, false, "text"⟩, VEvent.savedSignal,
          VEvent.deactivate]
        ⟨ViewState.initial, ⟨false, []⟩, []⟩).st.saveTimerId = none ∧
    (⟨0, ["keep"]⟩ : SessionDir) ∈
      (some [(⟨0, ["keep"]⟩ : SessionDir)]).getD [] := by
  refine ⟨rfl, rfl, ?_⟩
  have h := disabled_toggle_writes_nothing ⟨false, 5⟩
    [VEvent.activate ⟨"u", true, false, "text"⟩,
      VEvent.timerTick ⟨"u", true, false, "text"⟩, VEvent.savedSignal,
      VEvent.deactivate]
    ⟨ViewState.initial, ⟨false, []⟩, []⟩ 0 (some [⟨0, ["keep"]⟩])
    ⟨0, ["keep"]⟩ rfl rfl (by decide)
  simpa using h
